import Mathlib

/-!
Verification development for the uplift portfolio profit engine of the
repository, embedded from streamlit_app/utils/calculations.py.

Conventions of the embedding:
* real-valued columns are rationals;
* a pandas Series.mean over a possibly empty series returns NaN, modelled
  as Option with none for NaN; call sites that the code guards with
  explicit nonemptiness checks read the value with getD 0, which under the
  guard is exactly the mean;
* Series.rank with method first gives each record 1 plus the number of
  records that strictly precede it in the order by score, ties broken by
  original position;
* pd.qcut(ranks, 10, labels=False) with right-closed bins labels an
  integer rank r with the number of interior quantile edges strictly below
  r; the interior edges of the rank data 1..n are 1 + (n-1)*k/10 for
  k = 1..9 (linear-interpolation quantiles), and the comparison
  1 + (n-1)*k/10 < r is equivalent to (n-1)*k < 10*(r-1) in exact
  arithmetic; qcut raises a ValueError (duplicate bin edges) exactly when
  the edges collapse, i.e. when the frame has at most one row;
* DataFrame.head over a negative count drops that many rows from the end,
  Python int() truncates toward zero.
-/

namespace Uplift

/-- One customer record as read from the input file: predicted uplift
score, treatment-arm indicator and observed outcome. -/
structure Customer where
  uplift_score : ℚ
  treatment : Bool
  y_true : Bool
deriving DecidableEq

/-- A customer record after load_and_prepare_data added the derived decile
label. -/
structure Row where
  decile : ℕ
  uplift_score : ℚ
  treatment : Bool
  y_true : Bool
deriving DecidableEq

/-- Strict order used by Series.rank with method first: record j precedes
record i when its score is smaller, or the scores tie and j comes first in
the original sequence. -/
def keyLt (s : List ℚ) (j i : ℕ) : Prop :=
  s.getD j 0 < s.getD i 0 ∨ (s.getD j 0 = s.getD i 0 ∧ j < i)

instance keyLt.instDecidable (s : List ℚ) (j i : ℕ) : Decidable (keyLt s j i) := by
  unfold keyLt; infer_instance

/-- Rank of record i under Series.rank with method first: 1 plus the
number of records preceding it. -/
def rankOf (s : List ℚ) (i : ℕ) : ℕ :=
  1 + ((Finset.range s.length).filter (fun j => keyLt s j i)).card

/-- The rank column produced by df.uplift_score.rank(method first). -/
def rankFirst (s : List ℚ) : List ℕ :=
  (List.range s.length).map (rankOf s)

/-- Decile bin index in 0..9 assigned by pd.qcut(ranks, 10, labels=False)
to the integer rank r among ranks 1..n: the number of interior quantile
edges 1 + (n-1)*k/10, k = 1..9, lying strictly below r (bins are
right-closed, the lowest bin includes its left edge). -/
def binOfRank (n r : ℕ) : ℕ :=
  ((Finset.Icc 1 9).filter (fun k => (n - 1) * k < 10 * (r - 1))).card

/-- The decile column: qcut bin of the rank of each record, plus 1. -/
def decilesOf (s : List ℚ) : List ℕ :=
  (rankFirst s).map (fun r => binOfRank s.length r + 1)

/-- Failure mode of pd.qcut on the rank column: with at most one row all
quantile edges coincide and qcut raises a ValueError (bin edges must be
unique). No other failure can occur, and no InsufficientDataError exists
anywhere in the code. -/
inductive LoadError where
  | valueError : LoadError
deriving DecidableEq

/-- load_and_prepare_data: attach to every record the decile derived from
the rank of its uplift score (qcut of the rank column into 10 bins, plus
1). Fails exactly when qcut does, i.e. on frames with at most one row. -/
def load_and_prepare_data (df : List Customer) : Except LoadError (List Row) :=
  if df.length ≤ 1 then Except.error LoadError.valueError
  else Except.ok (List.zipWith
    (fun c d => { decile := d, uplift_score := c.uplift_score,
                  treatment := c.treatment, y_true := c.y_true })
    df (decilesOf (df.map (fun c => c.uplift_score))))

/-- Numeric column of the y_true flags, as pandas sees it. -/
def yCol (l : List Row) : List ℚ :=
  l.map (fun r => if r.y_true then (1 : ℚ) else 0)

/-- Series.mean: NaN (none) over an empty series, else the arithmetic
mean. -/
def seriesMean (l : List ℚ) : Option ℚ :=
  if l.length = 0 then none else some (l.sum / l.length)

/-- Conversion rate of a subset of rows: mean of its y_true column. -/
def armRate (l : List Row) : Option ℚ :=
  seriesMean (yCol l)

/-- Rows of the treated arm: filter treatment == 1. -/
def treatedOf (l : List Row) : List Row :=
  l.filter (fun r => r.treatment)

/-- Rows of the control arm: filter treatment == 0. -/
def controlOf (l : List Row) : List Row :=
  l.filter (fun r => !r.treatment)

/-- Rows of one decile: filter decile == d. -/
def decileSubset (df : List Row) (d : ℕ) : List Row :=
  df.filter (fun r => r.decile = d)

/-- One row of the frame built by calculate_decile_stats. -/
structure StatRow where
  decile : ℕ
  n_customers : ℕ
  n_treated : ℕ
  n_control : ℕ
  treatment_rate : ℚ
  control_rate : ℚ
  observed_lift : ℚ
  uplift_rate : ℚ
deriving DecidableEq

/-- Treated conversion rate reported for decile d: the mean of the treated
y_true values when both arms are nonempty in the decile, else the 0
fallback of the else branch. -/
def decileTreatRate (df : List Row) (d : ℕ) : ℚ :=
  if 0 < (treatedOf (decileSubset df d)).length ∧
     0 < (controlOf (decileSubset df d)).length then
    (armRate (treatedOf (decileSubset df d))).getD 0
  else 0

/-- Control conversion rate reported for decile d, with the same guard and
0 fallback. -/
def decileCtrlRate (df : List Row) (d : ℕ) : ℚ :=
  if 0 < (treatedOf (decileSubset df d)).length ∧
     0 < (controlOf (decileSubset df d)).length then
    (armRate (controlOf (decileSubset df d))).getD 0
  else 0

/-- The per-decile record appended by calculate_decile_stats for decile d.
In both branches of the guard the code reports uplift_rate as the treated
rate minus the control rate (both 0 in the else branch), the percentage
columns as the rates times 100, and the observed lift as the uplift rate
times 100. -/
def decileStatsRow (df : List Row) (d : ℕ) : StatRow :=
  { decile := d
    n_customers := (decileSubset df d).length
    n_treated := (treatedOf (decileSubset df d)).length
    n_control := (controlOf (decileSubset df d)).length
    treatment_rate := decileTreatRate df d * 100
    control_rate := decileCtrlRate df d * 100
    observed_lift := (decileTreatRate df d - decileCtrlRate df d) * 100
    uplift_rate := decileTreatRate df d - decileCtrlRate df d }

/-- calculate_decile_stats: one row per decile in range(1, 11). -/
def calculate_decile_stats (df : List Row) : List StatRow :=
  (List.range' 1 10).map (decileStatsRow df)

/-- Python int() applied to a rational: truncation toward zero. -/
def int_trunc (q : ℚ) : ℤ :=
  if 0 ≤ q then ⌊q⌋ else ⌈q⌉

/-- Eligible pool of calculate_portfolio_profit: the rows whose decile is
in the selected list. -/
def poolOf (df : List Row) (selected_deciles : List ℕ) : List Row :=
  df.filter (fun r => selected_deciles.contains r.decile)

/-- The pool after sort_values(uplift_score, ascending=False), modelled as
a stable descending sort. -/
def sortedPool (df : List Row) (selected_deciles : List ℕ) : List Row :=
  List.insertionSort (fun a b => b.uplift_score ≤ a.uplift_score)
    (poolOf df selected_deciles)

/-- n_target of calculate_portfolio_profit: int(pool_size * target_pct),
replaced by 1 when that truncation is exactly 0. -/
def nTarget (df : List Row) (selected_deciles : List ℕ) (target_pct : ℚ) : ℤ :=
  if int_trunc (((poolOf df selected_deciles).length : ℚ) * target_pct) = 0 then 1
  else int_trunc (((poolOf df selected_deciles).length : ℚ) * target_pct)

/-- DataFrame.head with a possibly negative count: the first n rows when n
is nonnegative, everything but the last -n rows otherwise. -/
def dfHead (l : List Row) (n : ℤ) : List Row :=
  if 0 ≤ n then l.take n.toNat else l.take (l.length - (-n).toNat)

/-- The targeted subset: head of the descending-sorted pool. -/
def targetedOf (df : List Row) (selected_deciles : List ℕ) (target_pct : ℚ) : List Row :=
  dfHead (sortedPool df selected_deciles) (nTarget df selected_deciles target_pct)

/-- The dict returned by calculate_portfolio_profit. -/
structure PortfolioResult where
  profit : ℚ
  revenue : ℚ
  cost : ℚ
  incremental_conversions : ℚ
  emails_sent : ℤ
  pool_size : ℕ
deriving DecidableEq

/-- Incremental conversions projected from the targeted subset: uplift
rate of the targeted subset times n_target when both arms are nonempty
there, else 0. -/
def incrConv (targeted : List Row) (nt : ℤ) : ℚ :=
  if 0 < (treatedOf targeted).length ∧ 0 < (controlOf targeted).length then
    ((armRate (treatedOf targeted)).getD 0 - (armRate (controlOf targeted)).getD 0) * nt
  else 0

/-- calculate_portfolio_profit. Performs no validation of its parameters:
it filters the pool, returns the all-zero dict when the pool is empty, and
otherwise sorts, truncates, projects and prices exactly as the source
does. -/
def calculate_portfolio_profit (df : List Row) (selected_deciles : List ℕ)
    (target_pct email_cost profit_per_conversion : ℚ) : PortfolioResult :=
  if (poolOf df selected_deciles).length = 0 then
    { profit := 0, revenue := 0, cost := 0, incremental_conversions := 0,
      emails_sent := 0, pool_size := 0 }
  else
    { profit := incrConv (targetedOf df selected_deciles target_pct)
          (nTarget df selected_deciles target_pct) * profit_per_conversion
        - (nTarget df selected_deciles target_pct : ℚ) * email_cost
      revenue := incrConv (targetedOf df selected_deciles target_pct)
          (nTarget df selected_deciles target_pct) * profit_per_conversion
      cost := (nTarget df selected_deciles target_pct : ℚ) * email_cost
      incremental_conversions := incrConv (targetedOf df selected_deciles target_pct)
          (nTarget df selected_deciles target_pct)
      emails_sent := nTarget df selected_deciles target_pct
      pool_size := (poolOf df selected_deciles).length }

/-- The dict returned by calculate_spray_and_pray. The rate computations
are not guarded, so a missing arm makes every downstream number NaN
(none); the cost and the email count never involve a mean and stay
plain. -/
structure SprayResult where
  profit : Option ℚ
  revenue : Option ℚ
  cost : ℚ
  incremental_conversions : Option ℚ
  emails_sent : ℕ
deriving DecidableEq

/-- Incremental conversions of calculate_spray_and_pray: difference of the
unguarded arm means times the total row count, NaN-propagating. -/
def sprayIncr (df : List Row) : Option ℚ :=
  match armRate (treatedOf df), armRate (controlOf df) with
  | some t, some c => some ((t - c) * (df.length : ℚ))
  | _, _ => none

/-- calculate_spray_and_pray: every decile, the whole population. -/
def calculate_spray_and_pray (df : List Row) (email_cost profit_per_conversion : ℚ) :
    SprayResult :=
  { profit := Option.map
      (fun i => i * profit_per_conversion - (df.length : ℚ) * email_cost) (sprayIncr df)
    revenue := Option.map (fun i => i * profit_per_conversion) (sprayIncr df)
    cost := (df.length : ℚ) * email_cost
    incremental_conversions := sprayIncr df
    emails_sent := df.length }

/-- np.argmax: index of the first occurrence of the maximum value (0 on an
empty list, where numpy would raise). -/
def argmaxIdx : List ℚ → ℕ
  | [] => 0
  | x :: xs =>
    if x < xs.getD (argmaxIdx xs) 0 ∧ xs ≠ [] then argmaxIdx xs + 1 else 0

/-- The dict returned by calculate_profit_curve. -/
structure CurveResult where
  percentages : List ℕ
  profits : List ℚ
  optimal_pct : ℕ
  optimal_profit : ℚ
deriving DecidableEq

/-- The grid range(5, 105, 5) of targeting percentages. -/
def curveGrid : List ℕ :=
  List.range' 5 20 5

/-- The profit series of the sweep: the profit field of
calculate_portfolio_profit at pct_int / 100 for every grid point. -/
def curveProfits (df : List Row) (selected_deciles : List ℕ)
    (email_cost profit_per_conversion : ℚ) : List ℚ :=
  curveGrid.map (fun pct_int =>
    (calculate_portfolio_profit df selected_deciles ((pct_int : ℚ) / 100)
      email_cost profit_per_conversion).profit)

/-- calculate_profit_curve. The n_points parameter is accepted with
default 20 and never read by the body, exactly as in the source. -/
def calculate_profit_curve (df : List Row) (selected_deciles : List ℕ)
    (email_cost profit_per_conversion : ℚ) (n_points : ℕ := 20) : CurveResult :=
  { percentages := curveGrid
    profits := curveProfits df selected_deciles email_cost profit_per_conversion
    optimal_pct := curveGrid.getD
      (argmaxIdx (curveProfits df selected_deciles email_cost profit_per_conversion)) 0
    optimal_profit := (curveProfits df selected_deciles email_cost profit_per_conversion).getD
      (argmaxIdx (curveProfits df selected_deciles email_cost profit_per_conversion)) 0 }

/-- One row of the frame returned by calculate_decile_profits. -/
structure DecileProfitRow where
  decile : ℕ
  n_customers : ℕ
  uplift_rate : ℚ
  incremental_conv : ℚ
  cost : ℚ
  revenue : ℚ
  profit : ℚ
deriving DecidableEq

/-- The columns calculate_decile_profits adds to one decile stats row. -/
def decileProfitRow (r : StatRow) (email_cost profit_per_conversion : ℚ) :
    DecileProfitRow :=
  { decile := r.decile
    n_customers := r.n_customers
    uplift_rate := r.uplift_rate
    incremental_conv := r.uplift_rate * (r.n_customers : ℚ)
    cost := (r.n_customers : ℚ) * email_cost
    revenue := r.uplift_rate * (r.n_customers : ℚ) * profit_per_conversion
    profit := r.uplift_rate * (r.n_customers : ℚ) * profit_per_conversion
      - (r.n_customers : ℚ) * email_cost }

/-- calculate_decile_profits: the projection columns row by row. -/
def calculate_decile_profits (decile_stats : List StatRow)
    (email_cost profit_per_conversion : ℚ) : List DecileProfitRow :=
  decile_stats.map (fun r => decileProfitRow r email_cost profit_per_conversion)

/-- Number of ranks r in 1..n whose qcut bin is at least k (proof
infrastructure for the bin-size counting). -/
def thresholdCount (n k : ℕ) : ℕ :=
  ((Finset.Icc 1 n).filter (fun r => k ≤ binOfRank n r)).card

/-- Number of ranks r in 1..n assigned to decile d (proof
infrastructure). -/
def decileCountIcc (n d : ℕ) : ℕ :=
  ((Finset.Icc 1 n).filter (fun r => binOfRank n r + 1 = d)).card

/-- A frame of twelve records sharing one identical score, used as a
concrete instance. -/
def tiesFrame : List Customer :=
  List.replicate 12 { uplift_score := 0, treatment := true, y_true := false }

/-- A five-record frame with a duplicated score, used as a concrete
instance. -/
def smallFrame : List Customer :=
  [{ uplift_score := 3, treatment := true, y_true := true },
   { uplift_score := 1, treatment := false, y_true := false },
   { uplift_score := 4, treatment := true, y_true := false },
   { uplift_score := 1, treatment := false, y_true := true },
   { uplift_score := 5, treatment := true, y_true := true }]

/-- Ten decile-1 rows with distinct scores, alternating arms, used as a
concrete instance. -/
def tenRowFrame : List Row :=
  (List.range 10).map (fun i =>
    { decile := 1, uplift_score := (i : ℚ), treatment := i % 2 == 0,
      y_true := i % 3 == 0 })

/-- A single treated decile-1 row, used as a concrete instance. -/
def oneTreatedFrame : List Row :=
  [{ decile := 1, uplift_score := 0, treatment := true, y_true := true }]

/-- Two treated decile-1 rows with distinct scores, used as a concrete
instance. -/
def twoRowFrame : List Row :=
  [{ decile := 1, uplift_score := 5, treatment := true, y_true := true },
   { decile := 1, uplift_score := 3, treatment := true, y_true := false }]

/-- A single decile-stats row with plausible contents, used as a concrete
instance. -/
def oneStatRow : StatRow :=
  { decile := 1, n_customers := 4, n_treated := 2, n_control := 2,
    treatment_rate := 50, control_rate := 25, observed_lift := 25,
    uplift_rate := 1/4 }

/-- A small decile-labeled frame with both arms present, used as a
concrete instance. -/
def bothArmsFrame : List Row :=
  [{ decile := 1, uplift_score := 5, treatment := true, y_true := true },
   { decile := 2, uplift_score := 4, treatment := false, y_true := false },
   { decile := 3, uplift_score := 3, treatment := true, y_true := false },
   { decile := 4, uplift_score := 2, treatment := false, y_true := true }]

/-! Lemmas on the rank order. -/

theorem keyLt_trans {s : List ℚ} {a b c : ℕ} (h1 : keyLt s a b) (h2 : keyLt s b c) :
    keyLt s a c := by
  rcases h1 with h1 | ⟨e1, l1⟩ <;> rcases h2 with h2 | ⟨e2, l2⟩
  · exact Or.inl (lt_trans h1 h2)
  · exact Or.inl (e2 ▸ h1)
  · exact Or.inl (e1 ▸ h2)
  · exact Or.inr ⟨e1.trans e2, Nat.lt_trans l1 l2⟩

theorem keyLt_irrefl {s : List ℚ} {i : ℕ} : ¬ keyLt s i i := by
  rintro (h | ⟨_, h⟩)
  · exact lt_irrefl _ h
  · exact Nat.lt_irrefl _ h

theorem keyLt_of_ne {s : List ℚ} {i j : ℕ} (hij : i ≠ j) :
    keyLt s i j ∨ keyLt s j i := by
  rcases lt_trichotomy (s.getD i 0) (s.getD j 0) with h | h | h
  · exact Or.inl (Or.inl h)
  · rcases Nat.lt_or_ge i j with hl | hl
    · exact Or.inl (Or.inr ⟨h, hl⟩)
    · exact Or.inr (Or.inr ⟨h.symm, Nat.lt_of_le_of_ne hl (Ne.symm hij)⟩)
  · exact Or.inr (Or.inl h)

theorem rankOf_lt_rankOf {s : List ℚ} {i j : ℕ} (hi : i < s.length)
    (hk : keyLt s i j) : rankOf s i < rankOf s j := by
  unfold rankOf
  apply Nat.add_lt_add_left
  apply Finset.card_lt_card
  constructor
  · intro x hx
    rcases Finset.mem_filter.mp hx with ⟨hxr, hxk⟩
    exact Finset.mem_filter.mpr ⟨hxr, keyLt_trans hxk hk⟩
  · intro hsub
    have hmem : i ∈ (Finset.range s.length).filter (fun j' => keyLt s j' j) :=
      Finset.mem_filter.mpr ⟨Finset.mem_range.mpr hi, hk⟩
    exact keyLt_irrefl (Finset.mem_filter.mp (hsub hmem)).2

theorem one_le_rankOf (s : List ℚ) (i : ℕ) : 1 ≤ rankOf s i :=
  Nat.le_add_right 1 _

theorem rankOf_le_length {s : List ℚ} {i : ℕ} (hi : i < s.length) :
    rankOf s i ≤ s.length := by
  have hsub : (Finset.range s.length).filter (fun j => keyLt s j i)
      ⊆ (Finset.range s.length).erase i := by
    intro x hx
    rcases Finset.mem_filter.mp hx with ⟨hxr, hxk⟩
    refine Finset.mem_erase.mpr ⟨?_, hxr⟩
    rintro rfl
    exact keyLt_irrefl hxk
  have hcard := Finset.card_le_card hsub
  rw [Finset.card_erase_of_mem (Finset.mem_range.mpr hi), Finset.card_range] at hcard
  unfold rankOf
  omega

theorem rankFirst_nodup (s : List ℚ) : (rankFirst s).Nodup := by
  refine List.Nodup.map_on ?_ (List.nodup_range _)
  intro x hx y hy hxy
  by_contra hne
  rcases keyLt_of_ne hne with hk | hk
  · exact absurd hxy
      (Nat.ne_of_lt (rankOf_lt_rankOf (List.mem_range.mp hx) hk))
  · exact absurd hxy.symm
      (Nat.ne_of_lt (rankOf_lt_rankOf (List.mem_range.mp hy) hk))

theorem rankFirst_length (s : List ℚ) : (rankFirst s).length = s.length := by
  simp [rankFirst]

theorem mem_rankFirst_bounds {s : List ℚ} {r : ℕ} (hr : r ∈ rankFirst s) :
    1 ≤ r ∧ r ≤ s.length := by
  rcases List.mem_map.mp hr with ⟨i, hi, rfl⟩
  exact ⟨one_le_rankOf s i, rankOf_le_length (List.mem_range.mp hi)⟩

theorem rankFirst_toFinset (s : List ℚ) :
    (rankFirst s).toFinset = Finset.Icc 1 s.length := by
  have hsub : (rankFirst s).toFinset ⊆ Finset.Icc 1 s.length := by
    intro r hr
    have := mem_rankFirst_bounds (List.mem_toFinset.mp hr)
    exact Finset.mem_Icc.mpr this
  refine Finset.eq_of_subset_of_card_le hsub ?_
  rw [List.toFinset_card_of_nodup (rankFirst_nodup s), rankFirst_length,
    Nat.card_Icc]
  omega

theorem countP_rankFirst (s : List ℚ) (p : ℕ → Bool) :
    (rankFirst s).countP p
      = ((Finset.Icc 1 s.length).filter (fun r => p r = true)).card := by
  rw [List.countP_eq_length_filter, ← rankFirst_toFinset s,
    ← List.toFinset_filter,
    List.toFinset_card_of_nodup ((rankFirst_nodup s).filter p)]

/-! Lemmas on the qcut bins. -/

theorem binOfRank_le_nine (n r : ℕ) : binOfRank n r ≤ 9 := by
  have h := Finset.card_filter_le (Finset.Icc 1 9)
    (fun k => (n - 1) * k < 10 * (r - 1))
  rw [Nat.card_Icc] at h
  exact h

theorem le_binOfRank_iff {n k : ℕ} (hn : 2 ≤ n) (hk1 : 1 ≤ k) (hk9 : k ≤ 9)
    (r : ℕ) : k ≤ binOfRank n r ↔ (n - 1) * k < 10 * (r - 1) := by
  constructor
  · intro h
    by_contra hlt
    push_neg at hlt
    have hsub : (Finset.Icc 1 9).filter (fun j => (n - 1) * j < 10 * (r - 1))
        ⊆ Finset.Icc 1 (k - 1) := by
      intro j hj
      rcases Finset.mem_filter.mp hj with ⟨hj9, hjlt⟩
      have hjk : j < k := by
        have := lt_of_lt_of_le hjlt hlt
        exact Nat.lt_of_mul_lt_mul_left this
      exact Finset.mem_Icc.mpr ⟨(Finset.mem_Icc.mp hj9).1, by omega⟩
    have := Finset.card_le_card hsub
    rw [Nat.card_Icc] at this
    unfold binOfRank at h
    omega
  · intro h
    have hsub : Finset.Icc 1 k
        ⊆ (Finset.Icc 1 9).filter (fun j => (n - 1) * j < 10 * (r - 1)) := by
      intro j hj
      rcases Finset.mem_Icc.mp hj with ⟨hj1, hjk⟩
      refine Finset.mem_filter.mpr ⟨Finset.mem_Icc.mpr ⟨hj1, by omega⟩, ?_⟩
      calc (n - 1) * j ≤ (n - 1) * k := Nat.mul_le_mul_left _ hjk
        _ < 10 * (r - 1) := h
    have := Finset.card_le_card hsub
    rw [Nat.card_Icc] at this
    unfold binOfRank
    omega

theorem thresholdCount_eq {n k : ℕ} (hn : 2 ≤ n) (hk1 : 1 ≤ k) (hk9 : k ≤ 9) :
    thresholdCount n k = (n - 1) - (n - 1) * k / 10 := by
  have hset : (Finset.Icc 1 n).filter (fun r => k ≤ binOfRank n r)
      = Finset.Icc ((n - 1) * k / 10 + 2) n := by
    ext r
    rw [Finset.mem_filter, Finset.mem_Icc, Finset.mem_Icc,
      le_binOfRank_iff hn hk1 hk9 r]
    have h9 : (n - 1) * k ≤ (n - 1) * 9 := Nat.mul_le_mul_left _ hk9
    generalize (n - 1) * k = M at *
    omega
  unfold thresholdCount
  rw [hset, Nat.card_Icc]
  have h9 : (n - 1) * k ≤ (n - 1) * 9 := Nat.mul_le_mul_left _ hk9
  generalize (n - 1) * k = M at *
  omega

theorem thresholdCount_zero (n : ℕ) : thresholdCount n 0 = n := by
  unfold thresholdCount
  rw [Finset.filter_true_of_mem (fun r _ => Nat.zero_le _), Nat.card_Icc]
  omega

theorem thresholdCount_ten (n : ℕ) : thresholdCount n 10 = 0 := by
  unfold thresholdCount
  rw [Finset.filter_false_of_mem, Finset.card_empty]
  intro r _
  have := binOfRank_le_nine n r
  omega

theorem decileCountIcc_eq_sub {n d : ℕ} (hd1 : 1 ≤ d) (hd10 : d ≤ 10) :
    decileCountIcc n d = thresholdCount n (d - 1) - thresholdCount n d := by
  have hsub : (Finset.Icc 1 n).filter (fun r => d ≤ binOfRank n r)
      ⊆ (Finset.Icc 1 n).filter (fun r => d - 1 ≤ binOfRank n r) :=
    Finset.monotone_filter_right _ (fun r h => by omega)
  have hset : (Finset.Icc 1 n).filter (fun r => binOfRank n r + 1 = d)
      = (Finset.Icc 1 n).filter (fun r => d - 1 ≤ binOfRank n r)
        \ (Finset.Icc 1 n).filter (fun r => d ≤ binOfRank n r) := by
    ext r
    rw [Finset.mem_sdiff, Finset.mem_filter, Finset.mem_filter,
      Finset.mem_filter]
    constructor
    · rintro ⟨hr, hb⟩
      exact ⟨⟨hr, by omega⟩, fun hc => by omega⟩
    · rintro ⟨⟨hr, hb⟩, hc⟩
      refine ⟨hr, ?_⟩
      by_contra hne
      exact hc ⟨hr, by omega⟩
  unfold decileCountIcc thresholdCount
  rw [hset, Finset.card_sdiff hsub]

theorem mul_div_ten_split (q s k : ℕ) :
    (10 * q + s) * k / 10 = k * q + s * k / 10 := by
  have h : (10 * q + s) * k = s * k + (k * q) * 10 := by ring
  rw [h, Nat.add_mul_div_right _ _ (by norm_num)]
  omega

theorem decileCountIcc_bounds {n d : ℕ} (hn : 10 ≤ n) (hd1 : 1 ≤ d)
    (hd10 : d ≤ 10) :
    1 ≤ decileCountIcc n d ∧ (n - 1) / 10 ≤ decileCountIcc n d ∧
      decileCountIcc n d ≤ (n - 1) / 10 + 1 := by
  have h2 : 2 ≤ n := by omega
  rw [decileCountIcc_eq_sub hd1 hd10]
  obtain ⟨q, s, hslt, hqs⟩ : ∃ q s, s < 10 ∧ n - 1 = 10 * q + s :=
    ⟨(n - 1) / 10, (n - 1) % 10, Nat.mod_lt _ (by norm_num),
      (Nat.div_add_mod _ 10).symm⟩
  interval_cases d
  · rw [show (1 : ℕ) - 1 = 0 from rfl, thresholdCount_zero,
      thresholdCount_eq h2 (by omega) (by omega), hqs, mul_div_ten_split]
    interval_cases s <;> omega
  · rw [show (2 : ℕ) - 1 = 1 from rfl, thresholdCount_eq h2 (by omega) (by omega),
      thresholdCount_eq h2 (by omega) (by omega), hqs, mul_div_ten_split,
      mul_div_ten_split]
    interval_cases s <;> omega
  · rw [show (3 : ℕ) - 1 = 2 from rfl, thresholdCount_eq h2 (by omega) (by omega),
      thresholdCount_eq h2 (by omega) (by omega), hqs, mul_div_ten_split,
      mul_div_ten_split]
    interval_cases s <;> omega
  · rw [show (4 : ℕ) - 1 = 3 from rfl, thresholdCount_eq h2 (by omega) (by omega),
      thresholdCount_eq h2 (by omega) (by omega), hqs, mul_div_ten_split,
      mul_div_ten_split]
    interval_cases s <;> omega
  · rw [show (5 : ℕ) - 1 = 4 from rfl, thresholdCount_eq h2 (by omega) (by omega),
      thresholdCount_eq h2 (by omega) (by omega), hqs, mul_div_ten_split,
      mul_div_ten_split]
    interval_cases s <;> omega
  · rw [show (6 : ℕ) - 1 = 5 from rfl, thresholdCount_eq h2 (by omega) (by omega),
      thresholdCount_eq h2 (by omega) (by omega), hqs, mul_div_ten_split,
      mul_div_ten_split]
    interval_cases s <;> omega
  · rw [show (7 : ℕ) - 1 = 6 from rfl, thresholdCount_eq h2 (by omega) (by omega),
      thresholdCount_eq h2 (by omega) (by omega), hqs, mul_div_ten_split,
      mul_div_ten_split]
    interval_cases s <;> omega
  · rw [show (8 : ℕ) - 1 = 7 from rfl, thresholdCount_eq h2 (by omega) (by omega),
      thresholdCount_eq h2 (by omega) (by omega), hqs, mul_div_ten_split,
      mul_div_ten_split]
    interval_cases s <;> omega
  · rw [show (9 : ℕ) - 1 = 8 from rfl, thresholdCount_eq h2 (by omega) (by omega),
      thresholdCount_eq h2 (by omega) (by omega), hqs, mul_div_ten_split,
      mul_div_ten_split]
    interval_cases s <;> omega
  · rw [show (10 : ℕ) - 1 = 9 from rfl, thresholdCount_eq h2 (by omega) (by omega),
      thresholdCount_ten, hqs, mul_div_ten_split]
    interval_cases s <;> omega

theorem decileCountIcc_le_one_small {n d : ℕ} (h2 : 2 ≤ n) (h10 : n < 10)
    (hd1 : 1 ≤ d) (hd10 : d ≤ 10) : decileCountIcc n d ≤ 1 := by
  rw [decileCountIcc_eq_sub hd1 hd10]
  interval_cases d
  · rw [show (1 : ℕ) - 1 = 0 from rfl, thresholdCount_zero,
      thresholdCount_eq h2 (by omega) (by omega)]
    interval_cases n <;> omega
  · rw [show (2 : ℕ) - 1 = 1 from rfl, thresholdCount_eq h2 (by omega) (by omega),
      thresholdCount_eq h2 (by omega) (by omega)]
    interval_cases n <;> omega
  · rw [show (3 : ℕ) - 1 = 2 from rfl, thresholdCount_eq h2 (by omega) (by omega),
      thresholdCount_eq h2 (by omega) (by omega)]
    interval_cases n <;> omega
  · rw [show (4 : ℕ) - 1 = 3 from rfl, thresholdCount_eq h2 (by omega) (by omega),
      thresholdCount_eq h2 (by omega) (by omega)]
    interval_cases n <;> omega
  · rw [show (5 : ℕ) - 1 = 4 from rfl, thresholdCount_eq h2 (by omega) (by omega),
      thresholdCount_eq h2 (by omega) (by omega)]
    interval_cases n <;> omega
  · rw [show (6 : ℕ) - 1 = 5 from rfl, thresholdCount_eq h2 (by omega) (by omega),
      thresholdCount_eq h2 (by omega) (by omega)]
    interval_cases n <;> omega
  · rw [show (7 : ℕ) - 1 = 6 from rfl, thresholdCount_eq h2 (by omega) (by omega),
      thresholdCount_eq h2 (by omega) (by omega)]
    interval_cases n <;> omega
  · rw [show (8 : ℕ) - 1 = 7 from rfl, thresholdCount_eq h2 (by omega) (by omega),
      thresholdCount_eq h2 (by omega) (by omega)]
    interval_cases n <;> omega
  · rw [show (9 : ℕ) - 1 = 8 from rfl, thresholdCount_eq h2 (by omega) (by omega),
      thresholdCount_eq h2 (by omega) (by omega)]
    interval_cases n <;> omega
  · rw [show (10 : ℕ) - 1 = 9 from rfl, thresholdCount_eq h2 (by omega) (by omega),
      thresholdCount_ten]
    interval_cases n <;> omega

theorem decileCountIcc_eq_zero {n d : ℕ} (hd : d = 0 ∨ 11 ≤ d) :
    decileCountIcc n d = 0 := by
  unfold decileCountIcc
  rw [Finset.card_eq_zero, Finset.filter_eq_empty_iff]
  intro r _
  have := binOfRank_le_nine n r
  omega

theorem decilesOf_length (s : List ℚ) : (decilesOf s).length = s.length := by
  simp [decilesOf, rankFirst]

theorem count_decilesOf (s : List ℚ) (d : ℕ) :
    (decilesOf s).count d = decileCountIcc s.length d := by
  unfold decilesOf
  rw [List.count, List.countP_map]
  show List.countP (fun r => binOfRank s.length r + 1 == d) (rankFirst s)
    = decileCountIcc s.length d
  rw [countP_rankFirst s (fun r => binOfRank s.length r + 1 == d)]
  unfold decileCountIcc
  congr 1
  refine Finset.filter_congr ?_
  intro r _
  simp

theorem mem_decilesOf_bounds {s : List ℚ} {x : ℕ} (hx : x ∈ decilesOf s) :
    1 ≤ x ∧ x ≤ 10 := by
  rcases List.mem_map.mp hx with ⟨r, _, rfl⟩
  have := binOfRank_le_nine s.length r
  omega

/-- C1: for every record sequence with at least 10 records, the decile
assignment of load_and_prepare_data (rank with method first, then qcut on
the rank column) succeeds and produces decile labels all in 1..10 such
that each of the 10 deciles is non-empty and any two decile group sizes
differ by at most one, regardless of ties among the scores. -/
theorem decile_binning_ten_balanced_groups (df : List Customer)
    (h10 : 10 ≤ df.length) :
    (load_and_prepare_data df).isOk = true ∧
    (∀ x ∈ decilesOf (df.map (fun c => c.uplift_score)), 1 ≤ x ∧ x ≤ 10) ∧
    (∀ d, 1 ≤ d → d ≤ 10 →
      1 ≤ (decilesOf (df.map (fun c => c.uplift_score))).count d) ∧
    (∀ d e, 1 ≤ d → d ≤ 10 → 1 ≤ e → e ≤ 10 →
      (decilesOf (df.map (fun c => c.uplift_score))).count d
        ≤ (decilesOf (df.map (fun c => c.uplift_score))).count e + 1) := by
  have hlen : (df.map (fun c => c.uplift_score)).length = df.length :=
    List.length_map df _
  refine ⟨?_, fun x hx => mem_decilesOf_bounds hx, ?_, ?_⟩
  · unfold load_and_prepare_data
    rw [if_neg (by omega)]
    rfl
  · intro d hd1 hd10
    rw [count_decilesOf, hlen]
    exact (decileCountIcc_bounds h10 hd1 hd10).1
  · intro d e hd1 hd10 he1 he10
    rw [count_decilesOf, count_decilesOf, hlen]
    have hd := decileCountIcc_bounds h10 hd1 hd10
    have he := decileCountIcc_bounds h10 he1 he10
    omega

theorem decile_binning_ten_balanced_groups_witness :
    10 ≤ tiesFrame.length ∧
    (load_and_prepare_data tiesFrame).isOk = true ∧
    1 ≤ (decilesOf (tiesFrame.map (fun c => c.uplift_score))).count 3 ∧
    (decilesOf (tiesFrame.map (fun c => c.uplift_score))).count 10
      ≤ (decilesOf (tiesFrame.map (fun c => c.uplift_score))).count 1 + 1 :=
  ⟨by decide,
    (decile_binning_ten_balanced_groups tiesFrame (by decide)).1,
    (decile_binning_ten_balanced_groups tiesFrame (by decide)).2.2.1 3
      (by omega) (by omega),
    (decile_binning_ten_balanced_groups tiesFrame (by decide)).2.2.2 10 1
      (by omega) (by omega) (by omega) (by omega)⟩

/-- C2 counterexample: a five-record sequence on which load_and_prepare_data
does not fail at all (the claim says every sequence of fewer than 10
records fails with InsufficientDataError). -/
theorem load_five_records_succeeds :
    smallFrame.length < 10 ∧ (load_and_prepare_data smallFrame).isOk = true := by
  decide

/-- C2 amended: for record sequences with fewer than 10 records,
load_and_prepare_data fails only when there are at most 1 records, and
then with the pandas ValueError of qcut (no InsufficientDataError exists
in the code); for 2 to 9 records it succeeds and produces as many
non-empty decile groups as there are records, hence fewer than 10. -/
theorem load_small_frame_behavior (df : List Customer) (h : df.length < 10) :
    (df.length ≤ 1 → load_and_prepare_data df = Except.error LoadError.valueError) ∧
    (2 ≤ df.length →
      (load_and_prepare_data df).isOk = true ∧
      (decilesOf (df.map (fun c => c.uplift_score))).toFinset.card = df.length ∧
      (decilesOf (df.map (fun c => c.uplift_score))).toFinset.card < 10) := by
  have hlen : (df.map (fun c => c.uplift_score)).length = df.length :=
    List.length_map df _
  constructor
  · intro h1
    unfold load_and_prepare_data
    rw [if_pos h1]
  · intro h2
    have hnodup : (decilesOf (df.map (fun c => c.uplift_score))).Nodup := by
      rw [List.nodup_iff_count_le_one]
      intro a
      rw [count_decilesOf, hlen]
      by_cases ha : 1 ≤ a ∧ a ≤ 10
      · exact decileCountIcc_le_one_small h2 h ha.1 ha.2
      · rw [decileCountIcc_eq_zero (by omega)]
        omega
    have hcard : (decilesOf (df.map (fun c => c.uplift_score))).toFinset.card
        = df.length := by
      rw [List.toFinset_card_of_nodup hnodup, decilesOf_length, hlen]
    refine ⟨?_, hcard, by omega⟩
    unfold load_and_prepare_data
    rw [if_neg (by omega)]
    rfl

theorem load_small_frame_behavior_witness :
    smallFrame.length < 10 ∧ 2 ≤ smallFrame.length ∧
    (load_and_prepare_data smallFrame).isOk = true ∧
    (decilesOf (smallFrame.map (fun c => c.uplift_score))).toFinset.card
      = smallFrame.length :=
  ⟨by decide, by decide,
    ((load_small_frame_behavior smallFrame (by decide)).2 (by decide)).1,
    ((load_small_frame_behavior smallFrame (by decide)).2 (by decide)).2.1⟩

/-- C7: every profit result of calculate_portfolio_profit,
calculate_spray_and_pray and calculate_decile_profits satisfies the
accounting identities: profit is revenue minus cost, revenue is
incremental conversions times profit per conversion, and cost is the
targeted customer count times the email cost. For calculate_spray_and_pray
the possibly-NaN fields satisfy the identities in the NaN-propagating
(Option.map) sense. -/
theorem profit_accounting_identities (df : List Row) (sel : List ℕ)
    (f c p : ℚ) (stats : List StatRow) :
    ((calculate_portfolio_profit df sel f c p).profit
        = (calculate_portfolio_profit df sel f c p).revenue
          - (calculate_portfolio_profit df sel f c p).cost ∧
      (calculate_portfolio_profit df sel f c p).revenue
        = (calculate_portfolio_profit df sel f c p).incremental_conversions * p ∧
      (calculate_portfolio_profit df sel f c p).cost
        = ((calculate_portfolio_profit df sel f c p).emails_sent : ℚ) * c) ∧
    ((calculate_spray_and_pray df c p).profit
        = Option.map (fun x => x - (calculate_spray_and_pray df c p).cost)
            (calculate_spray_and_pray df c p).revenue ∧
      (calculate_spray_and_pray df c p).revenue
        = Option.map (fun x => x * p)
            (calculate_spray_and_pray df c p).incremental_conversions ∧
      (calculate_spray_and_pray df c p).cost
        = ((calculate_spray_and_pray df c p).emails_sent : ℚ) * c) ∧
    (∀ row ∈ calculate_decile_profits stats c p,
      row.profit = row.revenue - row.cost ∧
      row.revenue = row.incremental_conv * p ∧
      row.cost = (row.n_customers : ℚ) * c) := by
  refine ⟨?_, ?_, ?_⟩
  · unfold calculate_portfolio_profit
    by_cases hpool : (poolOf df sel).length = 0
    · rw [if_pos hpool]
      norm_num
    · rw [if_neg hpool]
      exact ⟨rfl, rfl, rfl⟩
  · unfold calculate_spray_and_pray
    cases hI : sprayIncr df <;> simp [hI]
  · intro row hrow
    rcases List.mem_map.mp hrow with ⟨r, _, rfl⟩
    exact ⟨rfl, rfl, rfl⟩

theorem profit_accounting_identities_witness :
    ((calculate_portfolio_profit bothArmsFrame (List.range' 1 10) (1/2) 1 2).profit
      = (calculate_portfolio_profit bothArmsFrame (List.range' 1 10) (1/2) 1 2).revenue
        - (calculate_portfolio_profit bothArmsFrame (List.range' 1 10) (1/2) 1 2).cost) ∧
    ((decileProfitRow oneStatRow 1 2).profit
      = (decileProfitRow oneStatRow 1 2).revenue - (decileProfitRow oneStatRow 1 2).cost ∧
     (decileProfitRow oneStatRow 1 2).revenue
      = (decileProfitRow oneStatRow 1 2).incremental_conv * 2 ∧
     (decileProfitRow oneStatRow 1 2).cost
      = ((decileProfitRow oneStatRow 1 2).n_customers : ℚ) * 1) :=
  ⟨(profit_accounting_identities bothArmsFrame (List.range' 1 10) (1/2) 1 2
      [oneStatRow]).1.1,
   (profit_accounting_identities bothArmsFrame (List.range' 1 10) (1/2) 1 2
      [oneStatRow]).2.2 (decileProfitRow oneStatRow 1 2)
      (by simp [calculate_decile_profits])⟩

/-- C8: whenever the included-decile selection matches zero records, the
portfolio estimator returns the all-zero result dict without raising. -/
theorem portfolio_empty_pool_all_zero (df : List Row) (sel : List ℕ)
    (f c p : ℚ) (h : (poolOf df sel).length = 0) :
    calculate_portfolio_profit df sel f c p =
      { profit := 0, revenue := 0, cost := 0, incremental_conversions := 0,
        emails_sent := 0, pool_size := 0 } := by
  unfold calculate_portfolio_profit
  rw [if_pos h]

theorem portfolio_empty_pool_all_zero_witness :
    (poolOf bothArmsFrame [9]).length = 0 ∧
    calculate_portfolio_profit bothArmsFrame [9] (1/2) 1 2 =
      { profit := 0, revenue := 0, cost := 0, incremental_conversions := 0,
        emails_sent := 0, pool_size := 0 } :=
  ⟨by decide, portfolio_empty_pool_all_zero bothArmsFrame [9] (1/2) 1 2 (by decide)⟩

/-- C9: calculate_decile_stats returns exactly one row per decile 1..10,
including empty deciles, and whenever the treated or the control arm of a
decile is empty the reported rates and lift of that decile are all 0. -/
theorem decile_stats_ten_rows_zero_fallback (df : List Row) :
    (calculate_decile_stats df).length = 10 ∧
    (∀ i, i < 10 →
      ((calculate_decile_stats df).getD i
        { decile := 0, n_customers := 0, n_treated := 0, n_control := 0,
          treatment_rate := 0, control_rate := 0, observed_lift := 0,
          uplift_rate := 0 }).decile = i + 1) ∧
    (∀ i, i < 10 →
      ((treatedOf (decileSubset df (i + 1))).length = 0 ∨
        (controlOf (decileSubset df (i + 1))).length = 0) →
      ((calculate_decile_stats df).getD i
        { decile := 0, n_customers := 0, n_treated := 0, n_control := 0,
          treatment_rate := 0, control_rate := 0, observed_lift := 0,
          uplift_rate := 0 }).treatment_rate = 0 ∧
      ((calculate_decile_stats df).getD i
        { decile := 0, n_customers := 0, n_treated := 0, n_control := 0,
          treatment_rate := 0, control_rate := 0, observed_lift := 0,
          uplift_rate := 0 }).control_rate = 0 ∧
      ((calculate_decile_stats df).getD i
        { decile := 0, n_customers := 0, n_treated := 0, n_control := 0,
          treatment_rate := 0, control_rate := 0, observed_lift := 0,
          uplift_rate := 0 }).observed_lift = 0 ∧
      ((calculate_decile_stats df).getD i
        { decile := 0, n_customers := 0, n_treated := 0, n_control := 0,
          treatment_rate := 0, control_rate := 0, observed_lift := 0,
          uplift_rate := 0 }).uplift_rate = 0) := by
  refine ⟨rfl, ?_, ?_⟩
  · intro i hi
    interval_cases i <;> rfl
  · intro i hi h
    have hrow : (calculate_decile_stats df).getD i
        { decile := 0, n_customers := 0, n_treated := 0, n_control := 0,
          treatment_rate := 0, control_rate := 0, observed_lift := 0,
          uplift_rate := 0 } = decileStatsRow df (i + 1) := by
      interval_cases i <;> rfl
    have hng : ¬(0 < (treatedOf (decileSubset df (i + 1))).length ∧
        0 < (controlOf (decileSubset df (i + 1))).length) := by omega
    have ht : decileTreatRate df (i + 1) = 0 := by
      unfold decileTreatRate
      rw [if_neg hng]
    have hc : decileCtrlRate df (i + 1) = 0 := by
      unfold decileCtrlRate
      rw [if_neg hng]
    rw [hrow]
    unfold decileStatsRow
    simp only [ht, hc]
    norm_num

theorem decile_stats_ten_rows_zero_fallback_witness :
    ((treatedOf (decileSubset bothArmsFrame 5)).length = 0 ∨
      (controlOf (decileSubset bothArmsFrame 5)).length = 0) ∧
    (calculate_decile_stats bothArmsFrame).length = 10 ∧
    ((calculate_decile_stats bothArmsFrame).getD 4
      { decile := 0, n_customers := 0, n_treated := 0, n_control := 0,
        treatment_rate := 0, control_rate := 0, observed_lift := 0,
        uplift_rate := 0 }).uplift_rate = 0 :=
  ⟨by decide,
   (decile_stats_ten_rows_zero_fallback bothArmsFrame).1,
   ((decile_stats_ten_rows_zero_fallback bothArmsFrame).2.2 4 (by omega)
      (by decide)).2.2.2⟩

/-- C4 counterexample: on a two-record pool with targeting fraction 3/4
the code targets int(2 * 0.75) = 1 record, while round(2 * 0.75) = 2, so
the claimed round-based count is wrong. -/
theorem emails_sent_truncates_not_rounds :
    0 < (poolOf twoRowFrame [1]).length ∧ (0 : ℚ) < 3 / 4 ∧ (3 : ℚ) / 4 ≤ 1 ∧
    (calculate_portfolio_profit twoRowFrame [1] (3 / 4) 1 1).emails_sent = 1 ∧
    round (((poolOf twoRowFrame [1]).length : ℚ) * (3 / 4)) = (2 : ℤ) ∧
    (1 : ℤ) ≠ 2 := by
  refine ⟨by decide, by norm_num, by norm_num, ?_, ?_, by decide⟩
  · simp [calculate_portfolio_profit, poolOf, twoRowFrame, nTarget, int_trunc]
    norm_num
  · simp [poolOf, twoRowFrame]
    rw [round_eq]
    norm_num

/-- C4 amended: on a non-empty pool with targeting fraction f in (0,1],
the targeted count is the truncation int(pool_size * f) (a floor, since
the product is nonnegative), replaced by 1 when that truncation is 0; it
is not the rounded value. -/
theorem emails_sent_floor_min_one (df : List Row) (sel : List ℕ) (f c p : ℚ)
    (hpool : (poolOf df sel).length ≠ 0) (hf0 : 0 < f) (hf1 : f ≤ 1) :
    (calculate_portfolio_profit df sel f c p).emails_sent
      = max 1 ⌊((poolOf df sel).length : ℚ) * f⌋ ∧
    (targetedOf df sel f).length
      = (max 1 ⌊((poolOf df sel).length : ℚ) * f⌋).toNat := by
  have hnn : (0 : ℚ) ≤ ((poolOf df sel).length : ℚ) * f :=
    mul_nonneg (Nat.cast_nonneg _) hf0.le
  have hfl0 : (0 : ℤ) ≤ ⌊((poolOf df sel).length : ℚ) * f⌋ :=
    Int.floor_nonneg.mpr hnn
  have htr : int_trunc (((poolOf df sel).length : ℚ) * f)
      = ⌊((poolOf df sel).length : ℚ) * f⌋ := by
    unfold int_trunc
    rw [if_pos hnn]
  have hmax : nTarget df sel f = max 1 ⌊((poolOf df sel).length : ℚ) * f⌋ := by
    unfold nTarget
    rw [htr]
    by_cases h0 : ⌊((poolOf df sel).length : ℚ) * f⌋ = 0
    · rw [if_pos h0, h0]
      omega
    · rw [if_neg h0]
      omega
  have hlen1 : 1 ≤ (poolOf df sel).length := Nat.one_le_iff_ne_zero.mpr hpool
  have hfle : ⌊((poolOf df sel).length : ℚ) * f⌋ ≤ ((poolOf df sel).length : ℤ) := by
    calc ⌊((poolOf df sel).length : ℚ) * f⌋
        ≤ ⌊((poolOf df sel).length : ℚ)⌋ :=
          Int.floor_le_floor (mul_le_of_le_one_right (Nat.cast_nonneg _) hf1)
      _ = ((poolOf df sel).length : ℤ) := Int.floor_natCast _
  have hslen : (sortedPool df sel).length = (poolOf df sel).length :=
    (List.perm_insertionSort _ _).length_eq
  constructor
  · unfold calculate_portfolio_profit
    rw [if_neg hpool]
    exact hmax
  · unfold targetedOf dfHead
    rw [hmax, if_pos (by omega : (0 : ℤ) ≤ max 1 ⌊((poolOf df sel).length : ℚ) * f⌋),
      List.length_take, hslen]
    omega

theorem emails_sent_floor_min_one_witness :
    (poolOf twoRowFrame [1]).length ≠ 0 ∧ (0 : ℚ) < 3 / 4 ∧ (3 : ℚ) / 4 ≤ 1 ∧
    (calculate_portfolio_profit twoRowFrame [1] (3 / 4) 1 1).emails_sent
      = max 1 ⌊((poolOf twoRowFrame [1]).length : ℚ) * (3 / 4)⌋ :=
  ⟨by decide, by norm_num, by norm_num,
    (emails_sent_floor_min_one twoRowFrame [1] (3 / 4) 1 1 (by decide)
      (by norm_num) (by norm_num)).1⟩

/-- C5 counterexample: with targeting fraction 0 and negative cost
parameters - all outside the claimed valid ranges - the portfolio
estimator performs no validation and returns a normal result dict instead
of raising ValidationError (which does not exist in the code). -/
theorem invalid_params_return_normally :
    ¬(0 < (0 : ℚ) ∧ (0 : ℚ) ≤ 1) ∧ (-1 : ℚ) ≤ 0 ∧
    calculate_portfolio_profit twoRowFrame [1] 0 (-1) (-1) =
      { profit := 1, revenue := 0, cost := -1, incremental_conversions := 0,
        emails_sent := 1, pool_size := 2 } := by
  refine ⟨by norm_num, by norm_num, ?_⟩
  simp [calculate_portfolio_profit, poolOf, twoRowFrame, nTarget, int_trunc,
    targetedOf, sortedPool, dfHead, incrConv, treatedOf, controlOf,
    List.insertionSort, List.orderedInsert]
  norm_num

/-- C5 amended: neither calculate_portfolio_profit nor
calculate_profit_curve validates its parameters: for a targeting fraction
outside (0,1] or non-positive cost parameters they return normally
computed results by the same formulas (no ValidationError exists in the
code). -/
theorem no_parameter_validation (df : List Row) (sel : List ℕ) (f c p : ℚ)
    (h : ¬(0 < f ∧ f ≤ 1) ∨ c ≤ 0 ∨ p ≤ 0) :
    (calculate_portfolio_profit df sel f c p).pool_size = (poolOf df sel).length ∧
    (calculate_portfolio_profit df sel f c p).profit
      = (calculate_portfolio_profit df sel f c p).revenue
        - (calculate_portfolio_profit df sel f c p).cost ∧
    (calculate_profit_curve df sel c p).profits
      = curveGrid.map (fun pct_int =>
          (calculate_portfolio_profit df sel ((pct_int : ℚ) / 100) c p).profit) ∧
    (calculate_profit_curve df sel c p).profits.length = 20 := by
  refine ⟨?_, ?_, rfl, rfl⟩
  · unfold calculate_portfolio_profit
    by_cases hpool : (poolOf df sel).length = 0
    · rw [if_pos hpool, hpool]
    · rw [if_neg hpool]
  · unfold calculate_portfolio_profit
    by_cases hpool : (poolOf df sel).length = 0
    · rw [if_pos hpool]
      norm_num
    · rw [if_neg hpool]

theorem no_parameter_validation_witness :
    (¬(0 < (0 : ℚ) ∧ (0 : ℚ) ≤ 1) ∨ (-1 : ℚ) ≤ 0 ∨ (-1 : ℚ) ≤ 0) ∧
    (calculate_portfolio_profit twoRowFrame [1] 0 (-1) (-1)).pool_size
      = (poolOf twoRowFrame [1]).length :=
  ⟨Or.inl (by norm_num),
    (no_parameter_validation twoRowFrame [1] 0 (-1) (-1)
      (Or.inl (by norm_num))).1⟩

/-- C10: the n_points argument of calculate_profit_curve has no effect on
the result: the body never reads it, the grid being hard coded to
range(5, 105, 5). -/
theorem n_points_has_no_effect (df : List Row) (sel : List ℕ) (c p : ℚ)
    (a b : ℕ) :
    calculate_profit_curve df sel c p a = calculate_profit_curve df sel c p b :=
  rfl

/-! Lemmas on argmaxIdx. -/

theorem argmaxIdx_lt_length (l : List ℚ) (hl : l ≠ []) :
    argmaxIdx l < l.length := by
  induction l with
  | nil => exact absurd rfl hl
  | cons x xs ih =>
    by_cases hc : x < xs.getD (argmaxIdx xs) 0 ∧ xs ≠ []
    · simp only [argmaxIdx, if_pos hc, List.length_cons]
      exact Nat.succ_lt_succ (ih hc.2)
    · simp only [argmaxIdx, if_neg hc, List.length_cons]
      exact Nat.succ_pos _

theorem argmaxIdx_getD_le (l : List ℚ) :
    ∀ j, j < l.length → l.getD j 0 ≤ l.getD (argmaxIdx l) 0 := by
  induction l with
  | nil => intro j hj; simp at hj
  | cons x xs ih =>
    intro j hj
    by_cases hc : x < xs.getD (argmaxIdx xs) 0 ∧ xs ≠ []
    · simp only [argmaxIdx, if_pos hc, List.getD_cons_succ]
      cases j with
      | zero => rw [List.getD_cons_zero]; exact le_of_lt hc.1
      | succ j =>
        rw [List.getD_cons_succ]
        refine ih j ?_
        rw [List.length_cons] at hj
        omega
    · simp only [argmaxIdx, if_neg hc, List.getD_cons_zero]
      cases j with
      | zero => rw [List.getD_cons_zero]
      | succ j =>
        rw [List.getD_cons_succ]
        have hxs : xs ≠ [] := by
          intro he
          subst he
          rw [List.length_cons] at hj
          simp at hj
        have hnlt : ¬ x < xs.getD (argmaxIdx xs) 0 := fun hlt => hc ⟨hlt, hxs⟩
        have hj' : j < xs.length := by
          rw [List.length_cons] at hj
          omega
        exact le_trans (ih j hj') (not_lt.mp hnlt)

theorem argmaxIdx_getD_lt (l : List ℚ) :
    ∀ j, j < argmaxIdx l → l.getD j 0 < l.getD (argmaxIdx l) 0 := by
  induction l with
  | nil =>
    intro j hj
    simp only [argmaxIdx] at hj
    exact absurd hj (Nat.not_lt_zero j)
  | cons x xs ih =>
    intro j hj
    by_cases hc : x < xs.getD (argmaxIdx xs) 0 ∧ xs ≠ []
    · simp only [argmaxIdx, if_pos hc] at hj ⊢
      rw [List.getD_cons_succ]
      cases j with
      | zero => rw [List.getD_cons_zero]; exact hc.1
      | succ j =>
        rw [List.getD_cons_succ]
        exact ih j (Nat.lt_of_succ_lt_succ hj)
    · simp only [argmaxIdx, if_neg hc] at hj
      exact absurd hj (Nat.not_lt_zero j)

/-- C6: calculate_profit_curve evaluates calculate_portfolio_profit at
exactly the 20 percentages 5, 10, ..., 100 in increasing order, and the
reported optimum is the first grid point of maximum profit: every profit
on the grid is at most the optimum and every earlier profit is strictly
below it. -/
theorem profit_curve_grid_and_first_max (df : List Row) (sel : List ℕ)
    (c p : ℚ) (npts : ℕ) :
    (calculate_profit_curve df sel c p npts).percentages
      = [5, 10, 15, 20, 25, 30, 35, 40, 45, 50,
         55, 60, 65, 70, 75, 80, 85, 90, 95, 100] ∧
    (calculate_profit_curve df sel c p npts).profits
      = (calculate_profit_curve df sel c p npts).percentages.map
          (fun pct_int =>
            (calculate_portfolio_profit df sel ((pct_int : ℚ) / 100) c p).profit) ∧
    ∃ k, k < 20 ∧
      (calculate_profit_curve df sel c p npts).optimal_pct
        = (calculate_profit_curve df sel c p npts).percentages.getD k 0 ∧
      (calculate_profit_curve df sel c p npts).optimal_profit
        = (calculate_profit_curve df sel c p npts).profits.getD k 0 ∧
      (∀ i, i < 20 →
        (calculate_profit_curve df sel c p npts).profits.getD i 0
          ≤ (calculate_profit_curve df sel c p npts).optimal_profit) ∧
      (∀ i, i < k →
        (calculate_profit_curve df sel c p npts).profits.getD i 0
          < (calculate_profit_curve df sel c p npts).optimal_profit) := by
  have hlen : (curveProfits df sel c p).length = 20 := rfl
  have hne : curveProfits df sel c p ≠ [] := by
    intro h
    rw [h] at hlen
    simp at hlen
  refine ⟨rfl, rfl, argmaxIdx (curveProfits df sel c p), ?_, rfl, rfl, ?_, ?_⟩
  · exact hlen ▸ argmaxIdx_lt_length _ hne
  · intro i hi
    exact argmaxIdx_getD_le (curveProfits df sel c p) i (by rw [hlen]; exact hi)
  · intro i hi
    exact argmaxIdx_getD_lt (curveProfits df sel c p) i hi

theorem profit_curve_grid_and_first_max_witness :
    (calculate_profit_curve bothArmsFrame (List.range' 1 10) 1 2 20).percentages
      = [5, 10, 15, 20, 25, 30, 35, 40, 45, 50,
         55, 60, 65, 70, 75, 80, 85, 90, 95, 100] :=
  (profit_curve_grid_and_first_max bothArmsFrame (List.range' 1 10) 1 2 20).1

/-! Lemmas for the baseline equivalence. -/

theorem armRate_perm {l₁ l₂ : List Row} (h : l₁.Perm l₂) :
    armRate l₁ = armRate l₂ := by
  unfold armRate seriesMean yCol
  have hm : (l₁.map fun r => if r.y_true then (1 : ℚ) else 0).Perm
      (l₂.map fun r => if r.y_true then (1 : ℚ) else 0) := h.map _
  rw [hm.length_eq, hm.sum_eq]

/-- C3 counterexample: on a dataset whose control arm is empty,
calculate_spray_and_pray propagates the NaN of the unguarded control mean
into its profit, while the equivalent calculate_portfolio_profit call is
guarded and returns minus the cost; the two results differ. -/
theorem spray_differs_from_full_portfolio :
    (calculate_spray_and_pray oneTreatedFrame 1 2).profit = none ∧
    (calculate_portfolio_profit oneTreatedFrame (List.range' 1 10) 1 1 2).profit
      = -1 ∧
    (calculate_spray_and_pray oneTreatedFrame 1 2).profit
      ≠ some ((calculate_portfolio_profit oneTreatedFrame
          (List.range' 1 10) 1 1 2).profit) := by
  have h1 : (calculate_spray_and_pray oneTreatedFrame 1 2).profit = none := by
    decide
  have h2 : (calculate_portfolio_profit oneTreatedFrame
      (List.range' 1 10) 1 1 2).profit = -1 := by
    simp [calculate_portfolio_profit, poolOf, oneTreatedFrame, nTarget,
      int_trunc, targetedOf, sortedPool, dfHead, incrConv, treatedOf,
      controlOf, List.insertionSort, List.orderedInsert, List.range']
  refine ⟨h1, h2, ?_⟩
  rw [h1, h2]
  simp

/-- C3 amended: whenever the dataset is decile-labeled and both
experimental arms are non-empty in it, calculate_spray_and_pray agrees
exactly - field by field - with calculate_portfolio_profit over all ten
deciles at targeting fraction 1, for any valid cost parameters. Without
the both-arms hypothesis the equality fails because the baseline is
unguarded against empty arms. -/
theorem spray_equals_full_portfolio (df : List Row) (c p : ℚ)
    (hlab : ∀ r ∈ df, 1 ≤ r.decile ∧ r.decile ≤ 10)
    (ht : 0 < (treatedOf df).length) (hctl : 0 < (controlOf df).length)
    (hc : 0 < c) (hp : 0 < p) :
    (calculate_spray_and_pray df c p).profit
      = some ((calculate_portfolio_profit df (List.range' 1 10) 1 c p).profit) ∧
    (calculate_spray_and_pray df c p).revenue
      = some ((calculate_portfolio_profit df (List.range' 1 10) 1 c p).revenue) ∧
    (calculate_spray_and_pray df c p).cost
      = (calculate_portfolio_profit df (List.range' 1 10) 1 c p).cost ∧
    (calculate_spray_and_pray df c p).incremental_conversions
      = some ((calculate_portfolio_profit df
          (List.range' 1 10) 1 c p).incremental_conversions) ∧
    ((calculate_spray_and_pray df c p).emails_sent : ℤ)
      = (calculate_portfolio_profit df (List.range' 1 10) 1 c p).emails_sent := by
  have hlen0 : df.length ≠ 0 := by
    intro h
    rw [List.length_eq_zero] at h
    subst h
    simp [treatedOf] at ht
  have hpool : poolOf df (List.range' 1 10) = df := by
    unfold poolOf
    rw [List.filter_eq_self]
    intro r hr
    have hb := hlab r hr
    show List.elem r.decile (List.range' 1 10) = true
    rw [List.elem_iff, List.mem_range'_1]
    omega
  have hpoolne : (poolOf df (List.range' 1 10)).length ≠ 0 := by
    rw [hpool]
    exact hlen0
  have htr : int_trunc ((df.length : ℚ) * 1) = (df.length : ℤ) := by
    unfold int_trunc
    rw [mul_one, if_pos (Nat.cast_nonneg _), Int.floor_natCast]
  have hN : nTarget df (List.range' 1 10) 1 = (df.length : ℤ) := by
    unfold nTarget
    rw [hpool, htr, if_neg (by exact_mod_cast hlen0)]
  have hsp : (sortedPool df (List.range' 1 10)).Perm df := by
    unfold sortedPool
    rw [hpool]
    exact List.perm_insertionSort _ _
  have htarg : targetedOf df (List.range' 1 10) 1 = sortedPool df (List.range' 1 10) := by
    unfold targetedOf dfHead
    rw [hN, if_pos (Int.natCast_nonneg _), Int.toNat_natCast]
    exact List.take_of_length_le (le_of_eq hsp.length_eq)
  have htperm : (treatedOf (targetedOf df (List.range' 1 10) 1)).Perm (treatedOf df) := by
    rw [htarg]
    exact hsp.filter _
  have hcperm : (controlOf (targetedOf df (List.range' 1 10) 1)).Perm (controlOf df) := by
    rw [htarg]
    exact hsp.filter _
  obtain ⟨t, hT⟩ : ∃ t, armRate (treatedOf df) = some t := by
    unfold armRate seriesMean
    rw [if_neg (by rw [yCol, List.length_map]; omega)]
    exact ⟨_, rfl⟩
  obtain ⟨cr, hC⟩ : ∃ cr, armRate (controlOf df) = some cr := by
    unfold armRate seriesMean
    rw [if_neg (by rw [yCol, List.length_map]; omega)]
    exact ⟨_, rfl⟩
  have hincr : incrConv (targetedOf df (List.range' 1 10) 1)
      (nTarget df (List.range' 1 10) 1) = (t - cr) * (df.length : ℚ) := by
    unfold incrConv
    rw [if_pos ⟨htperm.length_eq ▸ ht, hcperm.length_eq ▸ hctl⟩,
      armRate_perm htperm, armRate_perm hcperm, hT, hC, hN]
    simp
  have hspray : sprayIncr df = some ((t - cr) * (df.length : ℚ)) := by
    unfold sprayIncr
    rw [hT, hC]
  refine ⟨?_, ?_, ?_, ?_, ?_⟩
  · show Option.map (fun i => i * p - (df.length : ℚ) * c) (sprayIncr df)
      = some ((calculate_portfolio_profit df (List.range' 1 10) 1 c p).profit)
    unfold calculate_portfolio_profit
    rw [hspray, if_neg hpoolne, hincr, hN]
    simp [Option.map_some]
  · show Option.map (fun i => i * p) (sprayIncr df)
      = some ((calculate_portfolio_profit df (List.range' 1 10) 1 c p).revenue)
    unfold calculate_portfolio_profit
    rw [hspray, if_neg hpoolne, hincr]
    simp [Option.map_some]
  · show (df.length : ℚ) * c
      = (calculate_portfolio_profit df (List.range' 1 10) 1 c p).cost
    unfold calculate_portfolio_profit
    rw [if_neg hpoolne]
    show (df.length : ℚ) * c = ((nTarget df (List.range' 1 10) 1 : ℤ) : ℚ) * c
    rw [hN]
    simp
  · show sprayIncr df
      = some ((calculate_portfolio_profit df
          (List.range' 1 10) 1 c p).incremental_conversions)
    unfold calculate_portfolio_profit
    rw [hspray, if_neg hpoolne, hincr]
  · show ((df.length : ℕ) : ℤ)
      = (calculate_portfolio_profit df (List.range' 1 10) 1 c p).emails_sent
    unfold calculate_portfolio_profit
    rw [if_neg hpoolne]
    exact hN.symm

theorem spray_equals_full_portfolio_witness :
    (∀ r ∈ bothArmsFrame, 1 ≤ r.decile ∧ r.decile ≤ 10) ∧
    0 < (treatedOf bothArmsFrame).length ∧
    0 < (controlOf bothArmsFrame).length ∧ (0 : ℚ) < 1 ∧ (0 : ℚ) < 2 ∧
    (calculate_spray_and_pray bothArmsFrame 1 2).profit
      = some ((calculate_portfolio_profit bothArmsFrame
          (List.range' 1 10) 1 1 2).profit) :=
  ⟨by decide, by decide, by decide, by norm_num, by norm_num,
    (spray_equals_full_portfolio bothArmsFrame 1 2 (by decide) (by decide)
      (by decide) (by norm_num) (by norm_num)).1⟩

end Uplift
